import Mathlib

/-!
Shallow embedding of the `wvr-midi` repository (files `src/midi/controller.rs`
and `src/midi/p8.rs`).

Modelling conventions
- Decoded MIDI data bytes are 7-bit (`wmidi` guarantees this), so message
  fields are `Fin 128`.
- The per-index state tables of `MidiProvider` (`pressed`, `toggled`,
  `pressed_time`, `toggled_time`, `values`, each `[_; 1024]` in the source)
  are modelled as total functions from `Nat`; every write the source performs
  targets an index below 1024 (in fact below 128), which is proved below.
- `f32`/`f64` values are modelled as exact rationals (`ℚ`).
- Rust `&str` values handled by the prefix/split/parse query router of
  `MidiProvider::get` are modelled as `List Char`; the fixed-name router of
  `DjP8Provider::get` uses `String` directly.
- The mpsc channel drained by `get` is modelled as the explicit list of
  messages buffered at that poll; `Instant::now()` during a poll of
  `DjP8Provider::get` is modelled as an explicit `now : ℚ` parameter, and
  `Instant` timestamps stored in the state as `ℚ`.
-/

/-- A decoded MIDI message, mirroring the `wmidi::MidiMessage` variants the
providers inspect; all other variants collapse into `Other` (both providers
only log them). -/
inductive MidiMsg where
  | ControlChange (cn : Fin 128) (val : Fin 128)
  | NoteOn (note : Fin 128) (vel : Fin 128)
  | NoteOff (note : Fin 128) (vel : Fin 128)
  | Other
deriving DecidableEq

/-- The `wvr_data::DataHolder` variants produced by the two providers. -/
inductive DataHolder where
  | Float (v : ℚ)
  | Int (v : ℤ)
  | Bool (b : Bool)
  | BoolArray (l : List Bool)
  | ByteArray (l : List ℕ)
deriving DecidableEq

/-- State of `MidiProvider` (controller.rs lines 12-27), minus the
channel/port handles which are modelled as explicit `get` arguments. -/
structure MidiState where
  name : List Char
  time : ℚ
  pressed : Nat → Bool
  pressed_time : Nat → ℚ
  toggled : Nat → Bool
  toggled_time : Nat → ℚ
  values : Nat → Nat

/-- Processing of one decoded message by the drain loop of
`MidiProvider::get` (controller.rs lines 106-151).

- `ControlChange`: unconditional overwrite of `values[control_number]`.
- `NoteOn`: `pressed[note] := vel > 0`; on a rising edge
  (`!was_pressed && pressed[note]`) flip `toggled[note]` and stamp
  `pressed_time`/`toggled_time` with the current host time (the inner
  `if self.pressed[note_number]` of the source is true on that path).
- `NoteOff`: `pressed[note] := false`; if that changed the value
  (`was_pressed != pressed[note]`), flip `toggled[note]` and stamp
  `toggled_time`.
- Everything else is only logged. -/
def stepMsg (s : MidiState) (m : MidiMsg) : MidiState :=
  match m with
  | .ControlChange cn v =>
      { s with values := fun j => if j = cn.val then v.val else s.values j }
  | .NoteOn note vel =>
      let wasPressed := s.pressed note.val
      let isDown : Bool := decide (vel.val > 0)
      let s1 := { s with pressed := fun j => if j = note.val then isDown else s.pressed j }
      if !wasPressed && s1.pressed note.val then
        { s1 with
          toggled := fun j => if j = note.val then !s.toggled note.val else s.toggled j,
          pressed_time := fun j => if j = note.val then s.time else s.pressed_time j,
          toggled_time := fun j => if j = note.val then s.time else s.toggled_time j }
      else s1
  | .NoteOff note _vel =>
      let wasPressed := s.pressed note.val
      let s1 := { s with pressed := fun j => if j = note.val then false else s.pressed j }
      if wasPressed ≠ s1.pressed note.val then
        { s1 with
          toggled := fun j => if j = note.val then !s.toggled note.val else s.toggled j,
          toggled_time := fun j => if j = note.val then s.time else s.toggled_time j }
      else s1
  | .Other => s

/-- The drain loop of `MidiProvider::get`: fold the buffered messages in FIFO
order. -/
def drainM (s : MidiState) (msgs : List MidiMsg) : MidiState :=
  msgs.foldl stepMsg s

/-- `str.starts_with pre` on character lists (haystack first, needle second). -/
def strStartsWith : List Char → List Char → Bool
  | _, [] => true
  | [], _ :: _ => false
  | a :: as, b :: bs => if a = b then strStartsWith as bs else false

/-- Split a character list at the first occurrence of `c`: the part before it,
and `some` remainder after it (or `none` when `c` does not occur). -/
def splitFirst (c : Char) : List Char → List Char × Option (List Char)
  | [] => ([], none)
  | x :: xs =>
      if x = c then ([], some xs)
      else
        let r := splitFirst c xs
        (x :: r.1, r.2)

/-- Rust's `uniform_name.split('.').nth(1)`: the segment between the first dot
and the second dot (or the end); `none` exactly when the string contains no
dot, in which case the `?` operator makes `get` return `None` early. -/
def seg1? (q : List Char) : Option (List Char) :=
  match splitFirst '.' q with
  | (_, none) => none
  | (_, some rest) => some (splitFirst '.' rest).1

/-- ASCII decimal digit test, as used by Rust's `usize::from_str`. -/
def isAsciiDigit (c : Char) : Bool := decide ('0' ≤ c ∧ c ≤ '9')

/-- Drop the optional leading `'+'` accepted by Rust's `usize::from_str`. -/
def stripPlus : List Char → List Char
  | '+' :: rest => rest
  | s => s

/-- Rust's `str::parse::<usize>()` on the decoded query segment: an optional
leading `'+'` followed by one or more ASCII digits (overflow is irrelevant
here: parsed indices are only ever compared against 1024). -/
def parseNat? (s : List Char) : Option Nat :=
  if stripPlus s ≠ [] ∧ (stripPlus s).all isAsciiDigit then
    some ((stripPlus s).foldl (fun a c => a * 10 + (c.toNat - 48)) 0)
  else none

/-- One indexed-prefix branch of the query router (controller.rs lines
155-182): `some r` means `get` returns `r` immediately (`some none` is the
early `None` produced by the `?` when the name has no dot), `none` means the
branch falls through to the next one (parse failure or out-of-range index). -/
def tryIndexed (q pre : List Char) (f : Nat → Option DataHolder) :
    Option (Option DataHolder) :=
  if strStartsWith q pre then
    match seg1? q with
    | none => some none
    | some seg =>
        match parseNat? seg with
        | some i => (f i).map some
        | none => none
  else none

/-- The query router of `MidiProvider::get` (controller.rs lines 155-192),
applied after the drain loop: four indexed-prefix branches in source order
(`pressed_time` before `pressed`; the bound of every branch is the 1024-slot
table length), then the three aggregate names built from `self.name`. -/
def routeM (s : MidiState) (q : List Char) : Option DataHolder :=
  match tryIndexed q "pressed_time".data
      (fun i => if i < 1024 then some (.Float (s.pressed_time i)) else none) with
  | some r => r
  | none =>
  match tryIndexed q "pressed".data
      (fun i => if i < 1024 then some (.Bool (s.pressed i)) else none) with
  | some r => r
  | none =>
  match tryIndexed q "toggled".data
      (fun i => if i < 1024 then some (.Bool (s.toggled i)) else none) with
  | some r => r
  | none =>
  match tryIndexed q "value".data
      (fun i => if i < 1024 then some (.Int (s.values i)) else none) with
  | some r => r
  | none =>
  if q = s.name ++ ".pressed".data then
    some (.BoolArray ((List.range 1024).map s.pressed))
  else if q = s.name ++ ".toggled".data then
    some (.BoolArray ((List.range 1024).map s.toggled))
  else if q = s.name ++ ".values".data then
    some (.ByteArray ((List.range 1024).map s.values))
  else none

/-- `MidiProvider::get`: drain the buffered messages, then answer the query
from the updated state. Returns the post-call state together with the
returned value. -/
def getM (s : MidiState) (msgs : List MidiMsg) (q : List Char) :
    MidiState × Option DataHolder :=
  let s1 := drainM s msgs
  (s1, routeM s1 q)

/-- `MidiProvider::provides` (controller.rs lines 90-96). -/
def providesM (s : MidiState) : List (List Char) :=
  [s.name ++ ".pressed".data, s.name ++ ".toggled".data, s.name ++ ".values".data]

/-- State of `DjP8Provider` (p8.rs lines 10-47), minus the channel/port
handles; `Instant` timestamps are modelled as rational times. -/
structure DjP8State where
  last_left_sync_press : Option ℚ
  left_bpm : ℚ
  last_right_sync_press : Option ℚ
  right_bpm : ℚ
  left_low : Nat
  left_mid : Nat
  left_high : Nat
  right_low : Nat
  right_mid : Nat
  right_high : Nat
  left_pad_1 : Bool
  left_pad_2 : Bool
  left_pad_3 : Bool
  left_pad_4 : Bool
  right_pad_1 : Bool
  right_pad_2 : Bool
  right_pad_3 : Bool
  right_pad_4 : Bool
  left_play : Bool
  left_cue : Bool
  left_sync : Bool
  left_shift : Bool
  right_play : Bool
  right_cue : Bool
  right_sync : Bool
  right_shift : Bool
deriving DecidableEq

/-- The state built by `DjP8Provider::new` (p8.rs lines 74-111). -/
def initP8 : DjP8State where
  last_left_sync_press := none
  left_bpm := 0
  last_right_sync_press := none
  right_bpm := 0
  left_low := 0
  left_mid := 0
  left_high := 0
  right_low := 0
  right_mid := 0
  right_high := 0
  left_pad_1 := false
  left_pad_2 := false
  left_pad_3 := false
  left_pad_4 := false
  right_pad_1 := false
  right_pad_2 := false
  right_pad_3 := false
  right_pad_4 := false
  left_play := false
  left_cue := false
  left_sync := false
  left_shift := false
  right_play := false
  right_cue := false
  right_sync := false
  right_shift := false

/-- `Duration::as_secs` of the elapsed time `now - t` (whole seconds,
truncated). -/
def elapsedSecs (now t : ℚ) : ℤ := ⌊now - t⌋

/-- `elapsed.as_secs() as f32 + elapsed.subsec_micros() as f32 / 1_000_000.0`
(p8.rs lines 221-222 and 230-231): the elapsed duration truncated to
microsecond precision, in seconds. -/
def durSecsF (e : ℚ) : ℚ := (⌊e⌋ : ℚ) + (⌊(e - ⌊e⌋) * 1000000⌋ : ℚ) / 1000000

/-- The left half of the staleness sweep at the top of `DjP8Provider::get`
(p8.rs lines 152-156): clear the left reference timestamp once
`elapsed().as_secs() > 2`. -/
def sweepLeft (s : DjP8State) (now : ℚ) : DjP8State :=
  match s.last_left_sync_press with
  | some t => if elapsedSecs now t > 2 then { s with last_left_sync_press := none } else s
  | none => s

/-- The right half of the staleness sweep (p8.rs lines 158-162). -/
def sweepRight (s : DjP8State) (now : ℚ) : DjP8State :=
  match s.last_right_sync_press with
  | some t => if elapsedSecs now t > 2 then { s with last_right_sync_press := none } else s
  | none => s

/-- The staleness sweep at the top of `DjP8Provider::get` (p8.rs lines
152-162): the two independent per-side blocks in source order. -/
def sweepP8 (s : DjP8State) (now : ℚ) : DjP8State :=
  sweepRight (sweepLeft s now) now

/-- Processing of one decoded message by the drain loop of
`DjP8Provider::get` (p8.rs lines 167-216): control changes 68/70/72 and
80/82/84 overwrite the six EQ knobs; note-ons set the pad/button booleans to
`vel != 0`; everything else — including `NoteOff` — is only logged. -/
def stepP8Msg (s : DjP8State) (m : MidiMsg) : DjP8State :=
  match m with
  | .ControlChange cn v =>
      match cn.val with
      | 68 => { s with left_low := v.val }
      | 70 => { s with left_mid := v.val }
      | 72 => { s with left_high := v.val }
      | 80 => { s with right_low := v.val }
      | 82 => { s with right_mid := v.val }
      | 84 => { s with right_high := v.val }
      | _ => s
  | .NoteOn note vel =>
      let b : Bool := decide (vel.val ≠ 0)
      match note.val with
      | 25 => { s with left_pad_1 := b }
      | 26 => { s with left_pad_2 := b }
      | 27 => { s with left_pad_3 := b }
      | 28 => { s with left_pad_4 := b }
      | 73 => { s with right_pad_1 := b }
      | 74 => { s with right_pad_2 := b }
      | 75 => { s with right_pad_3 := b }
      | 76 => { s with right_pad_4 := b }
      | 33 => { s with left_play := b }
      | 34 => { s with left_cue := b }
      | 35 => { s with left_sync := b }
      | 99 => { s with left_shift := b }
      | 81 => { s with right_play := b }
      | 82 => { s with right_cue := b }
      | 83 => { s with right_sync := b }
      | 47 => { s with right_shift := b }
      | _ => s
  | _ => s

/-- The left tap-tempo block at the bottom of `DjP8Provider::get` (p8.rs
lines 218-225): on a rising edge of the left sync button (pressed now, not
pressed at the start of the poll), if a reference timestamp exists set
`left_bpm` to `60 / elapsed`, then unconditionally store the new edge time. -/
def bpmStepLeft (s : DjP8State) (leftPre : Bool) (now : ℚ) : DjP8State :=
  if s.left_sync && !leftPre then
    let sa := match s.last_left_sync_press with
      | some t => { s with left_bpm := 60 / durSecsF (now - t) }
      | none => s
    { sa with last_left_sync_press := some now }
  else s

/-- The right tap-tempo block (p8.rs lines 227-234). -/
def bpmStepRight (s : DjP8State) (rightPre : Bool) (now : ℚ) : DjP8State :=
  if s.right_sync && !rightPre then
    let sb := match s.last_right_sync_press with
      | some t => { s with right_bpm := 60 / durSecsF (now - t) }
      | none => s
    { sb with last_right_sync_press := some now }
  else s

/-- Both tap-tempo blocks, in source order. -/
def bpmStep (s : DjP8State) (leftPre rightPre : Bool) (now : ℚ) : DjP8State :=
  bpmStepRight (bpmStepLeft s leftPre now) rightPre now

/-- The fixed-name query router at the end of `DjP8Provider::get` (p8.rs
lines 236-269). -/
def routeP8 (s : DjP8State) (q : String) : Option DataHolder :=
  if q = "left_bpm" then some (.Float s.left_bpm)
  else if q = "right_bpm" then some (.Float s.right_bpm)
  else if q = "left_low" then some (.Float ((s.left_low : ℚ) / 127))
  else if q = "left_mid" then some (.Float ((s.left_mid : ℚ) / 127))
  else if q = "left_high" then some (.Float ((s.left_high : ℚ) / 127))
  else if q = "right_low" then some (.Float ((s.right_low : ℚ) / 127))
  else if q = "right_mid" then some (.Float ((s.right_mid : ℚ) / 127))
  else if q = "right_high" then some (.Float ((s.right_high : ℚ) / 127))
  else if q = "left_pad_1" then some (.Bool s.left_pad_1)
  else if q = "left_pad_2" then some (.Bool s.left_pad_2)
  else if q = "left_pad_3" then some (.Bool s.left_pad_3)
  else if q = "left_pad_4" then some (.Bool s.left_pad_4)
  else if q = "right_pad_1" then some (.Bool s.right_pad_1)
  else if q = "right_pad_2" then some (.Bool s.right_pad_2)
  else if q = "right_pad_3" then some (.Bool s.right_pad_3)
  else if q = "right_pad_4" then some (.Bool s.right_pad_4)
  else if q = "left_play" then some (.Bool s.left_play)
  else if q = "left_cue" then some (.Bool s.left_cue)
  else if q = "left_sync" then some (.Bool s.left_sync)
  else if q = "left_shift" then some (.Bool s.left_shift)
  else if q = "right_play" then some (.Bool s.right_play)
  else if q = "right_cue" then some (.Bool s.right_cue)
  else if q = "right_sync" then some (.Bool s.right_sync)
  else if q = "right_shift" then some (.Bool s.right_shift)
  else none

/-- `DjP8Provider::get` for one poll at host-clock time `now` with the list
of currently buffered messages: staleness sweep, capture of the pre-drain
sync flags, drain, tap-tempo edge handling, then the fixed-name router.
Returns the post-call state together with the returned value. -/
def getP8 (s : DjP8State) (now : ℚ) (msgs : List MidiMsg) (q : String) :
    DjP8State × Option DataHolder :=
  let s1 := sweepP8 s now
  let leftPre := s1.left_sync
  let rightPre := s1.right_sync
  let s2 := msgs.foldl stepP8Msg s1
  let s3 := bpmStep s2 leftPre rightPre now
  (s3, routeP8 s3 q)

/-- `DjP8Provider::provides` (p8.rs lines 122-149). -/
def providesP8 : List String :=
  ["left_bpm", "right_bpm",
   "left_low", "left_mid", "left_high",
   "right_low", "right_mid", "right_high",
   "left_pad_1", "left_pad_2", "left_pad_3", "left_pad_4",
   "right_pad_1", "right_pad_2", "right_pad_3", "right_pad_4",
   "left_play", "left_cue", "left_sync", "left_shift",
   "right_play", "right_cue", "right_sync", "right_shift"]

/-- The state tables built by `MidiProvider::new` (controller.rs lines
58-71): everything zeroed, the configured provider name stored. -/
def initM (name : List Char) : MidiState where
  name := name
  time := 0
  pressed := fun _ => false
  pressed_time := fun _ => 0
  toggled := fun _ => false
  toggled_time := fun _ => 0
  values := fun _ => 0

/-- Specification helper for the last-write-wins property (C7): the value
carried by the last control-change message for control `c` in a FIFO list,
if any; later messages take precedence. -/
def lastCC : List MidiMsg → Nat → Option Nat
  | [], _ => none
  | m :: ms, c =>
      match lastCC ms c with
      | some v => some v
      | none =>
          match m with
          | .ControlChange cn v => if cn.val = c then some v.val else none
          | _ => none

theorem stepMsg_noteOn_toggled (s : MidiState) (n v : Fin 128) (j : Nat) :
    (stepMsg s (.NoteOn n v)).toggled j =
      if j = n.val ∧ s.pressed n.val = false ∧ 0 < v.val then !s.toggled j
      else s.toggled j := by
  by_cases hp : s.pressed n.val <;> by_cases hv : 0 < v.val <;> by_cases hj : j = n.val <;>
    simp [stepMsg, hp, hv, hj]

theorem stepMsg_noteOff_toggled (s : MidiState) (n v : Fin 128) (j : Nat) :
    (stepMsg s (.NoteOff n v)).toggled j =
      if j = n.val ∧ s.pressed n.val = true then !s.toggled j
      else s.toggled j := by
  by_cases hp : s.pressed n.val <;> by_cases hj : j = n.val <;>
    simp [stepMsg, hp, hj]

theorem stepMsg_noteOn_pressed (s : MidiState) (n v : Fin 128) (j : Nat) :
    (stepMsg s (.NoteOn n v)).pressed j =
      if j = n.val then decide (0 < v.val) else s.pressed j := by
  by_cases hp : s.pressed n.val <;> by_cases hv : 0 < v.val <;> by_cases hj : j = n.val <;>
    simp [stepMsg, hp, hv, hj]

theorem stepMsg_noteOff_pressed (s : MidiState) (n v : Fin 128) (j : Nat) :
    (stepMsg s (.NoteOff n v)).pressed j =
      if j = n.val then false else s.pressed j := by
  by_cases hp : s.pressed n.val <;> by_cases hj : j = n.val <;>
    simp [stepMsg, hp, hj]

theorem stepMsg_noteOn_toggled_time (s : MidiState) (n v : Fin 128) (j : Nat) :
    (stepMsg s (.NoteOn n v)).toggled_time j =
      if j = n.val ∧ s.pressed n.val = false ∧ 0 < v.val then s.time
      else s.toggled_time j := by
  by_cases hp : s.pressed n.val <;> by_cases hv : 0 < v.val <;> by_cases hj : j = n.val <;>
    simp [stepMsg, hp, hv, hj]

theorem stepMsg_noteOff_toggled_time (s : MidiState) (n v : Fin 128) (j : Nat) :
    (stepMsg s (.NoteOff n v)).toggled_time j =
      if j = n.val ∧ s.pressed n.val = true then s.time
      else s.toggled_time j := by
  by_cases hp : s.pressed n.val <;> by_cases hj : j = n.val <;>
    simp [stepMsg, hp, hj]

theorem stepMsg_cc_toggled (s : MidiState) (cn v : Fin 128) (j : Nat) :
    (stepMsg s (.ControlChange cn v)).toggled j = s.toggled j := rfl

theorem stepMsg_other_toggled (s : MidiState) (j : Nat) :
    (stepMsg s .Other).toggled j = s.toggled j := rfl

theorem stepMsg_values (s : MidiState) (m : MidiMsg) (j : Nat) :
    (stepMsg s m).values j =
      match m with
      | .ControlChange cn v => if j = cn.val then v.val else s.values j
      | _ => s.values j := by
  cases m <;> simp [stepMsg] <;> split <;> rfl

theorem stepMsg_name (s : MidiState) (m : MidiMsg) : (stepMsg s m).name = s.name := by
  cases m <;> simp [stepMsg] <;> split <;> rfl

theorem drainM_name (s : MidiState) (msgs : List MidiMsg) :
    (drainM s msgs).name = s.name := by
  induction msgs generalizing s with
  | nil => rfl
  | cons m ms ih => rw [drainM, List.foldl_cons, ← drainM, ih, stepMsg_name]

/-- C1 (counterexample). The claim says `toggled[i]` flips once on every
true→false transition of `pressed[i]`; but a note-on with velocity 0 at a
pressed index clears `pressed` (a true→false change) without flipping
`toggled`, because the note-on arm of `MidiProvider::get` only flips on
rising edges (controller.rs line 127). -/
theorem toggled_misses_velocity_zero_release :
    (stepMsg (initM "midi".data) (.NoteOn 5 127)).pressed 5 = true ∧
    (stepMsg (stepMsg (initM "midi".data) (.NoteOn 5 127)) (.NoteOn 5 0)).pressed 5 = false ∧
    (stepMsg (stepMsg (initM "midi".data) (.NoteOn 5 127)) (.NoteOn 5 0)).toggled 5 =
      (stepMsg (initM "midi".data) (.NoteOn 5 127)).toggled 5 :=
  ⟨by decide, by decide, by decide⟩

/-- C1 (amended). `toggled[i]` flips exactly once per note-on rising edge of
`pressed[i]` and once per note-off falling edge; a velocity-0 note-on never
flips it (even though it clears `pressed[i]`), no message that leaves
`pressed[i]` unchanged flips it, and in particular two consecutive note-on
messages with velocity>0, or two consecutive identical note-off messages, at
the same index flip `toggled[i]` at most once. -/
theorem toggled_edge_discipline :
    ∀ (s : MidiState) (n v w : Fin 128) (j : Nat),
      ((stepMsg s (.NoteOn n v)).toggled j =
        if j = n.val ∧ s.pressed n.val = false ∧ 0 < v.val then !s.toggled j
        else s.toggled j) ∧
      ((stepMsg s (.NoteOff n v)).toggled j =
        if j = n.val ∧ s.pressed n.val = true then !s.toggled j
        else s.toggled j) ∧
      ((stepMsg s (.ControlChange n v)).toggled j = s.toggled j) ∧
      ((stepMsg s .Other).toggled j = s.toggled j) ∧
      (0 < v.val →
        (stepMsg (stepMsg s (.NoteOn n v)) (.NoteOn n w)).toggled j =
          (stepMsg s (.NoteOn n v)).toggled j) ∧
      ((stepMsg (stepMsg s (.NoteOff n v)) (.NoteOff n v)).toggled j =
        (stepMsg s (.NoteOff n v)).toggled j) := by
  intro s n v w j
  refine ⟨stepMsg_noteOn_toggled s n v j, stepMsg_noteOff_toggled s n v j,
    stepMsg_cc_toggled s n v j, stepMsg_other_toggled s j, ?_, ?_⟩
  · intro hv
    have hpr : (stepMsg s (.NoteOn n v)).pressed n.val = true := by
      rw [stepMsg_noteOn_pressed]; simp [hv]
    rw [stepMsg_noteOn_toggled, hpr]
    simp
  · have hpr : (stepMsg s (.NoteOff n v)).pressed n.val = false := by
      rw [stepMsg_noteOff_pressed]; simp
    rw [stepMsg_noteOff_toggled (stepMsg s (.NoteOff n v)), hpr]
    simp

/-- C1 (witness): the debounce conjunct of `toggled_edge_discipline` applied
at a concrete repeated note-on. -/
theorem toggled_edge_discipline_witness :
    (0 : Nat) < (127 : Fin 128).val ∧
    (stepMsg (stepMsg (initM "midi".data) (.NoteOn 5 127)) (.NoteOn 5 127)).toggled 5 =
      (stepMsg (initM "midi".data) (.NoteOn 5 127)).toggled 5 :=
  ⟨by decide,
   (toggled_edge_discipline (initM "midi".data) 5 127 127 5).2.2.2.2.1 (by decide)⟩

/-- C2 (counterexample). Note-on(velocity=0) and note-off do not produce the
same state in `MidiProvider::get`: at a pressed index, note-off flips
`toggled` while note-on(velocity=0) leaves it, so the resulting `toggled`
values differ. -/
theorem noteOn_zero_differs_from_noteOff :
    (stepMsg (stepMsg (initM "midi".data) (.NoteOn 5 127)) (.NoteOn 5 0)).toggled 5 ≠
      (stepMsg (stepMsg (initM "midi".data) (.NoteOn 5 127)) (.NoteOff 5 0)).toggled 5 := by
  decide

/-- C2 (amended). Note-on(velocity=0) and note-off agree on the `pressed`
table of `MidiProvider` (both clear the note's slot), but they are not
state-equivalent: at a pressed index a note-off flips `toggled` and stamps
`toggled_time` with the current host time, while a note-on(velocity=0)
leaves both unchanged; and in `DjP8Provider` a note-off message is ignored
entirely (the state is unchanged) while a note-on(velocity=0) clears the
matched pad/button field (shown for `left_play`, note 33). -/
theorem release_representation_comparison :
    ∀ (s : MidiState) (s8 : DjP8State) (n v : Fin 128) (j : Nat),
      ((stepMsg s (.NoteOn n 0)).pressed j = (stepMsg s (.NoteOff n v)).pressed j) ∧
      (s.pressed n.val = true →
        (stepMsg s (.NoteOff n v)).toggled n.val = !s.toggled n.val ∧
        (stepMsg s (.NoteOn n 0)).toggled n.val = s.toggled n.val ∧
        (stepMsg s (.NoteOff n v)).toggled_time n.val = s.time ∧
        (stepMsg s (.NoteOn n 0)).toggled_time n.val = s.toggled_time n.val) ∧
      (stepP8Msg s8 (.NoteOff n v) = s8) ∧
      ((stepP8Msg s8 (.NoteOn 33 0)).left_play = false) := by
  intro s s8 n v j
  refine ⟨?_, fun hp => ⟨?_, ?_, ?_, ?_⟩, rfl, rfl⟩
  · rw [stepMsg_noteOn_pressed, stepMsg_noteOff_pressed]; simp
  · rw [stepMsg_noteOff_toggled]; simp [hp]
  · rw [stepMsg_noteOn_toggled]; simp
  · rw [stepMsg_noteOff_toggled_time]; simp [hp]
  · rw [stepMsg_noteOn_toggled_time]; simp

/-- C2 (witness): `release_representation_comparison` applied at a pressed
concrete index. -/
theorem release_representation_comparison_witness :
    (stepMsg (initM "midi".data) (.NoteOn 5 127)).pressed (5 : Fin 128).val = true ∧
    (stepMsg (stepMsg (initM "midi".data) (.NoteOn 5 127)) (.NoteOff 5 0)).toggled 5 =
      !(stepMsg (initM "midi".data) (.NoteOn 5 127)).toggled 5 :=
  ⟨by decide,
   ((release_representation_comparison
      (stepMsg (initM "midi".data) (.NoteOn 5 127)) initP8 5 0 5).2.1 (by decide)).1⟩

/-- C3 (counterexample). After `NoteOn(33,127)` the query `left_play` is
`true`, but a subsequent `NoteOff(33)` is ignored by `DjP8Provider::get`
(its match has no note-off arm, p8.rs line 213), so `left_play` stays `true`
instead of becoming `false` as the claim requires. -/
theorem left_play_ignores_noteOff :
    ((getP8 initP8 0 [.NoteOn 33 127] "left_play").2 = some (.Bool true)) ∧
    ((getP8 ((getP8 initP8 0 [.NoteOn 33 127] "left_play").1) 1
        [.NoteOff 33 0] "left_play").2 = some (.Bool true)) ∧
    ((getP8 ((getP8 initP8 0 [.NoteOn 33 127] "left_play").1) 1
        [.NoteOff 33 0] "left_play").2 ≠ some (.Bool false)) :=
  ⟨by decide, by decide, by decide⟩

/-- C3 (amended). After `NoteOn(33,127)`, `get("left_play")` returns `true`;
after a subsequent `NoteOn(33,0)` (the release representation the provider
actually handles) it returns `false`; a `NoteOff(33)` message is ignored. -/
theorem left_play_scenario :
    ((getP8 initP8 0 [.NoteOn 33 127] "left_play").2 = some (.Bool true)) ∧
    ((getP8 ((getP8 initP8 0 [.NoteOn 33 127] "left_play").1) 1
        [.NoteOn 33 0] "left_play").2 = some (.Bool false)) :=
  ⟨by decide, by decide⟩

theorem bpmStepLeft_right_fields (s : DjP8State) (p : Bool) (now : ℚ) :
    (bpmStepLeft s p now).right_bpm = s.right_bpm ∧
    (bpmStepLeft s p now).last_right_sync_press = s.last_right_sync_press ∧
    (bpmStepLeft s p now).right_sync = s.right_sync := by
  unfold bpmStepLeft
  split
  · cases h : s.last_left_sync_press <;> simp [h]
  · exact ⟨rfl, rfl, rfl⟩

theorem bpmStepRight_left_fields (s : DjP8State) (p : Bool) (now : ℚ) :
    (bpmStepRight s p now).left_bpm = s.left_bpm ∧
    (bpmStepRight s p now).last_left_sync_press = s.last_left_sync_press ∧
    (bpmStepRight s p now).left_sync = s.left_sync := by
  unfold bpmStepRight
  split
  · cases h : s.last_right_sync_press <;> simp [h]
  · exact ⟨rfl, rfl, rfl⟩

theorem bpmStepLeft_edge (s : DjP8State) (now t : ℚ)
    (hl : s.left_sync = true) (hlast : s.last_left_sync_press = some t) :
    (bpmStepLeft s false now).left_bpm = 60 / durSecsF (now - t) ∧
    (bpmStepLeft s false now).last_left_sync_press = some now := by
  unfold bpmStepLeft
  rw [hl, hlast]
  simp

theorem bpmStepRight_edge (s : DjP8State) (now t : ℚ)
    (hr : s.right_sync = true) (hlast : s.last_right_sync_press = some t) :
    (bpmStepRight s false now).right_bpm = 60 / durSecsF (now - t) ∧
    (bpmStepRight s false now).last_right_sync_press = some now := by
  unfold bpmStepRight
  rw [hr, hlast]
  simp

unseal Rat.mul Rat.inv Rat.add Rat.sub in
/-- C4. On a detected rising edge of a sync button with a prior reference
timestamp `t`, `DjP8Provider::get` sets that side's bpm to `60 / elapsed`
(the elapsed time `now - t` truncated to microsecond precision, exactly the
interval in seconds for any whole-microsecond interval) and then stores the
new edge time as the reference; and the spec's scenario holds: sync edges at
t=0s, t=0.5s and t=1.0s (with releases in between, since an edge is a
pressed-transition across one poll) yield bpm 120 after the second and after
the third edge. -/
theorem tap_tempo_edge_update :
    (∀ (s : DjP8State) (rightPre : Bool) (now t : ℚ),
      s.left_sync = true → s.last_left_sync_press = some t →
        (bpmStep s false rightPre now).left_bpm = 60 / durSecsF (now - t) ∧
        (bpmStep s false rightPre now).last_left_sync_press = some now) ∧
    (∀ (s : DjP8State) (leftPre : Bool) (now t : ℚ),
      s.right_sync = true → s.last_right_sync_press = some t →
        (bpmStep s leftPre false now).right_bpm = 60 / durSecsF (now - t) ∧
        (bpmStep s leftPre false now).last_right_sync_press = some now) ∧
    (let p1 := (getP8 initP8 0 [.NoteOn 35 127] "left_bpm").1
     let p2 := (getP8 p1 (1/4) [.NoteOn 35 0] "left_bpm").1
     let p3 := (getP8 p2 (1/2) [.NoteOn 35 127] "left_bpm").1
     let p4 := (getP8 p3 (3/4) [.NoteOn 35 0] "left_bpm").1
     let p5 := (getP8 p4 1 [.NoteOn 35 127] "left_bpm").1
     p3.left_bpm = 120 ∧ p5.left_bpm = 120 ∧
       p3.last_left_sync_press = some (1/2) ∧ p5.last_left_sync_press = some 1) := by
  refine ⟨?_, ?_, ?_⟩
  · intro s rightPre now t hl hlast
    unfold bpmStep
    obtain ⟨hb, hp, _⟩ := bpmStepRight_left_fields (bpmStepLeft s false now) rightPre now
    rw [hb, hp]
    exact bpmStepLeft_edge s now t hl hlast
  · intro s leftPre now t hr hlast
    unfold bpmStep
    obtain ⟨hb, hp, hs⟩ := bpmStepLeft_right_fields s leftPre now
    exact bpmStepRight_edge (bpmStepLeft s leftPre now) now t (hs.trans hr) (hp.trans hlast)
  · decide

/-- C4 (witness): the left-edge conjunct of `tap_tempo_edge_update` applied
to a concrete state holding the sync button with reference time 0, polled at
time 1/2. -/
theorem tap_tempo_edge_update_witness :
    ({ initP8 with left_sync := true, last_left_sync_press := some 0 } : DjP8State).left_sync
      = true ∧
    (bpmStep { initP8 with left_sync := true, last_left_sync_press := some 0 }
        false false (1/2)).left_bpm = 60 / durSecsF (1/2 - 0) :=
  ⟨rfl,
   (tap_tempo_edge_update.1
      { initP8 with left_sync := true, last_left_sync_press := some 0 }
      false (1/2) 0 rfl rfl).1⟩

theorem sweepLeft_fields (s : DjP8State) (now : ℚ) :
    (sweepLeft s now).left_bpm = s.left_bpm ∧
    (sweepLeft s now).right_bpm = s.right_bpm ∧
    (sweepLeft s now).last_right_sync_press = s.last_right_sync_press := by
  unfold sweepLeft
  split
  · split <;> simp
  · exact ⟨rfl, rfl, rfl⟩

theorem sweepRight_fields (s : DjP8State) (now : ℚ) :
    (sweepRight s now).left_bpm = s.left_bpm ∧
    (sweepRight s now).right_bpm = s.right_bpm ∧
    (sweepRight s now).last_left_sync_press = s.last_left_sync_press := by
  unfold sweepRight
  split
  · split <;> simp
  · exact ⟨rfl, rfl, rfl⟩

theorem sweepLeft_clears (s : DjP8State) (now t : ℚ)
    (hlast : s.last_left_sync_press = some t) (h2 : elapsedSecs now t > 2) :
    (sweepLeft s now).last_left_sync_press = none := by
  unfold sweepLeft
  rw [hlast]
  simp [h2]

theorem sweepRight_clears (s : DjP8State) (now t : ℚ)
    (hlast : s.last_right_sync_press = some t) (h2 : elapsedSecs now t > 2) :
    (sweepRight s now).last_right_sync_press = none := by
  unfold sweepRight
  rw [hlast]
  simp [h2]

unseal Rat.mul Rat.inv Rat.add Rat.sub in
/-- C5. The staleness sweep at the top of every `DjP8Provider::get` poll:
once the elapsed time since a side's recorded sync edge satisfies
`elapsed().as_secs() > 2` (the code's staleness window, i.e. at least three
whole seconds), the reference timestamp of that side is cleared while the
previously computed bpm is left unchanged; consequently in the spec's
scenario — an edge at t=0s, a gap beyond the window, an edge at t=3.1s —
the post-gap edge does not compute `bpm = 60/3.1` (the bpm keeps its prior
value 0) and instead starts a fresh reference at 3.1s. -/
theorem staleness_sweep :
    (∀ (s : DjP8State) (now t : ℚ),
      s.last_left_sync_press = some t → elapsedSecs now t > 2 →
        (sweepP8 s now).last_left_sync_press = none ∧
        (sweepP8 s now).left_bpm = s.left_bpm) ∧
    (∀ (s : DjP8State) (now t : ℚ),
      s.last_right_sync_press = some t → elapsedSecs now t > 2 →
        (sweepP8 s now).last_right_sync_press = none ∧
        (sweepP8 s now).right_bpm = s.right_bpm) ∧
    (let p1 := (getP8 initP8 0 [.NoteOn 35 127] "left_bpm").1
     let p2 := (getP8 p1 (3/10) [.NoteOn 35 0] "left_bpm").1
     let p3 := (getP8 p2 (31/10) [.NoteOn 35 127] "left_bpm").1
     p3.left_bpm = 0 ∧ 60 / durSecsF (31/10 - 0) ≠ 0 ∧
       p3.last_left_sync_press = some (31/10)) := by
  refine ⟨?_, ?_, by decide, by decide, by decide⟩
  · intro s now t hlast h2
    unfold sweepP8
    obtain ⟨hbl, _, hrl⟩ := sweepRight_fields (sweepLeft s now) now
    rw [hbl, hrl]
    exact ⟨sweepLeft_clears s now t hlast h2, (sweepLeft_fields s now).1⟩
  · intro s now t hlast h2
    unfold sweepP8
    obtain ⟨_, hbr, hlr⟩ := sweepLeft_fields s now
    exact ⟨sweepRight_clears (sweepLeft s now) now t (hlr.trans hlast) h2,
      (sweepRight_fields (sweepLeft s now) now).2.1.trans hbr⟩

unseal Rat.mul Rat.inv Rat.add Rat.sub in
/-- C5 (witness): `staleness_sweep` applied to a concrete state whose left
reference is 0 while the poll happens at time 5. -/
theorem staleness_sweep_witness :
    (sweepP8 { initP8 with last_left_sync_press := some 0 } 5).last_left_sync_press = none ∧
    (sweepP8 { initP8 with last_left_sync_press := some 0 } 5).left_bpm
      = ({ initP8 with last_left_sync_press := some 0 } : DjP8State).left_bpm :=
  staleness_sweep.1 { initP8 with last_left_sync_press := some 0 } 5 0 rfl (by decide)

unseal Rat.mul Rat.inv Rat.add Rat.sub in
/-- C6. `DjP8Provider::get` performs no minimum-interval clamping: after a
valid measurement (bpm 120), two sync rising edges polled at the same
instant (interval 0, so `durSecsF` yields denominator 0) still recompute the
bpm, overwriting 120 with `60 / 0` (rendered as 0 in this exact-rational
model; `f32` division by zero yields infinity in the source) instead of
discarding the update as the claim requires. -/
theorem zero_interval_bpm_overwrite :
    (let p1 := (getP8 initP8 0 [.NoteOn 35 127] "left_bpm").1
     let p2 := (getP8 p1 (1/4) [.NoteOn 35 0] "left_bpm").1
     let p3 := (getP8 p2 (1/2) [.NoteOn 35 127] "left_bpm").1
     let p4 := (getP8 p3 (3/4) [.NoteOn 35 0] "left_bpm").1
     let p5 := (getP8 p4 1 [.NoteOn 35 127] "left_bpm").1
     let p6 := (getP8 p5 1 [.NoteOn 35 0] "left_bpm").1
     let p7 := (getP8 p6 1 [.NoteOn 35 127] "left_bpm").1
     p5.left_bpm = 120 ∧ durSecsF (1 - 1) = 0 ∧
       p7.left_bpm = 60 / durSecsF (1 - 1) ∧ p7.left_bpm ≠ 120) := by
  refine ⟨by decide, by decide, by decide, by decide⟩

unseal Rat.mul Rat.inv Rat.add Rat.sub in
/-- C7. A control-change at `(cn, v)` unconditionally overwrites
`values[cn]`; over any FIFO message list the stored continuous value is the
last control-change value received for that control (no smoothing, no
history), and from the initial `DjP8Provider` state the message
`ControlChange(68, 64)` makes `get("left_low")` return `64/127`. -/
theorem control_change_last_write_wins :
    (∀ (s : MidiState) (cn v : Fin 128),
      (stepMsg s (.ControlChange cn v)).values cn.val = v.val) ∧
    (∀ (s : MidiState) (msgs : List MidiMsg) (c : Nat),
      (drainM s msgs).values c = (lastCC msgs c).getD (s.values c)) ∧
    ((getP8 initP8 0 [.ControlChange 68 64] "left_low").2 = some (.Float (64/127))) := by
  refine ⟨fun s cn v => by simp [stepMsg], ?_, by decide⟩
  intro s msgs c
  induction msgs generalizing s with
  | nil => rfl
  | cons m ms ih =>
      rw [drainM, List.foldl_cons, ← drainM, ih]
      cases h : lastCC ms c with
      | some v => simp [lastCC, h]
      | none =>
          cases m with
          | ControlChange cn v =>
              rw [stepMsg_values]
              simp only [lastCC, h]
              by_cases hc : c = cn.val
              · subst hc; simp
              · have hc2 : ¬(cn.val = c) := fun hh => hc hh.symm
                simp [hc, hc2]
          | NoteOn n v => rw [stepMsg_values]; simp [lastCC, h]
          | NoteOff n v => rw [stepMsg_values]; simp [lastCC, h]
          | Other => rw [stepMsg_values]; simp [lastCC, h]

theorem splitFirst_not_mem {c : Char} {xs : List Char} (h : c ∉ xs) :
    splitFirst c xs = (xs, none) := by
  induction xs with
  | nil => rfl
  | cons x xs ih =>
      simp only [List.mem_cons, not_or] at h
      rw [splitFirst, if_neg (fun he => h.1 he.symm)]
      simp [ih h.2]

theorem stripPlus_spec (s : List Char) : s = stripPlus s ∨ s = '+' :: stripPlus s := by
  unfold stripPlus
  split
  · exact Or.inr rfl
  · exact Or.inl rfl

theorem parseNat?_digits {s : List Char} {n : Nat} (h : parseNat? s = some n) :
    stripPlus s ≠ [] ∧ (stripPlus s).all isAsciiDigit = true := by
  unfold parseNat? at h
  split at h
  · next hc => exact hc
  · exact absurd h (by simp)

theorem parseNat?_chars {s : List Char} {n : Nat} (h : parseNat? s = some n) :
    ∀ c ∈ s, c = '+' ∨ isAsciiDigit c = true := by
  obtain ⟨-, hall⟩ := parseNat?_digits h
  intro c hc
  rcases stripPlus_spec s with hs | hs
  · exact Or.inr (by simpa using List.all_eq_true.mp hall c (hs ▸ hc))
  · rcases List.mem_cons.mp (hs ▸ hc) with rfl | hc2
    · exact Or.inl rfl
    · exact Or.inr (by simpa using List.all_eq_true.mp hall c hc2)

theorem parseNat?_not_dot {s : List Char} {n : Nat} (h : parseNat? s = some n) :
    '.' ∉ s := by
  intro hm
  rcases parseNat?_chars h '.' hm with h1 | h2
  · exact absurd h1 (by decide)
  · exact absurd h2 (by decide)

theorem getLast?_cons_ne_nil {α : Type} {a : α} {l : List α} (h : l ≠ []) :
    (a :: l).getLast? = l.getLast? := by
  rcases l with _ | ⟨b, bs⟩
  · exact absurd rfl h
  · rw [List.getLast?_cons_cons]

theorem parseNat?_getLast {s : List Char} {n : Nat} (h : parseNat? s = some n) :
    ∃ c, s.getLast? = some c ∧ isAsciiDigit c = true := by
  obtain ⟨hne, hall⟩ := parseNat?_digits h
  have hlast : (stripPlus s).getLast? = some ((stripPlus s).getLast hne) :=
    List.getLast?_eq_getLast_of_ne_nil hne
  have hdig : isAsciiDigit ((stripPlus s).getLast hne) = true := by
    simpa using List.all_eq_true.mp hall _ (List.getLast_mem hne)
  rcases stripPlus_spec s with hs | hs
  · refine ⟨_, ?_, hdig⟩
    conv_lhs => rw [hs]
    exact hlast
  · refine ⟨_, ?_, hdig⟩
    conv_lhs => rw [hs]
    rw [getLast?_cons_ne_nil hne]
    exact hlast

theorem append_digit_ne_append_suffix {pre ds name suffix : List Char} {c d : Char}
    (hds : ds.getLast? = some c) (hcd : isAsciiDigit c = true)
    (hsuf : suffix.getLast? = some d) (hd : isAsciiDigit d = false) :
    pre ++ ds ≠ name ++ suffix := by
  intro he
  have hdsne : ds ≠ [] := by intro h0; rw [h0] at hds; simp at hds
  have hsufne : suffix ≠ [] := by intro h0; rw [h0] at hsuf; simp at hsuf
  have h1 : (pre ++ ds).getLast? = some c := by
    rw [List.getLast?_append_of_ne_nil _ hdsne]; exact hds
  have h2 : (name ++ suffix).getLast? = some d := by
    rw [List.getLast?_append_of_ne_nil _ hsufne]; exact hsuf
  rw [he, h2] at h1
  cases h1
  rw [hcd] at hd
  exact Bool.noConfusion hd

theorem tryIndexed_not_started {q pre : List Char} (h : strStartsWith q pre = false)
    (f : Nat → Option DataHolder) : tryIndexed q pre f = none := by
  unfold tryIndexed
  rw [h]
  simp

theorem tryIndexed_oob {q pre ds : List Char} {n : Nat}
    (hst : strStartsWith q pre = true) (hseg : seg1? q = some ds)
    (hp : parseNat? ds = some n) (hn : 1024 ≤ n) (v : Nat → DataHolder) :
    tryIndexed q pre (fun i => if i < 1024 then some (v i) else none) = none := by
  unfold tryIndexed
  simp [hst, hseg, hp, Nat.not_lt.mpr hn]

theorem routeM_oob_pressed (s : MidiState) (ds : List Char) (n : Nat)
    (hp : parseNat? ds = some n) (hn : 1024 ≤ n) :
    routeM s ("pressed.".data ++ ds) = none := by
  have hseg : seg1? ("pressed.".data ++ ds) = some ds := by
    simp [seg1?, splitFirst, splitFirst_not_mem (parseNat?_not_dot hp)]
  obtain ⟨c, hlastc, hdigc⟩ := parseNat?_getLast hp
  unfold routeM
  rw [tryIndexed_not_started (by simp [strStartsWith]) _,
      tryIndexed_oob (by simp [strStartsWith]) hseg hp hn]
  rw [tryIndexed_not_started (by simp [strStartsWith]) _,
      tryIndexed_not_started (by simp [strStartsWith]) _]
  have hda : (".pressed".data).getLast? = some 'd' := by decide
  have hdb : (".toggled".data).getLast? = some 'd' := by decide
  have hdc : (".values".data).getLast? = some 's' := by decide
  have hnd : isAsciiDigit 'd' = false := by decide
  have hns : isAsciiDigit 's' = false := by decide
  rw [if_neg (append_digit_ne_append_suffix hlastc hdigc hda hnd),
      if_neg (append_digit_ne_append_suffix hlastc hdigc hdb hnd),
      if_neg (append_digit_ne_append_suffix hlastc hdigc hdc hns)]

theorem routeM_oob_pressed_time (s : MidiState) (ds : List Char) (n : Nat)
    (hp : parseNat? ds = some n) (hn : 1024 ≤ n) :
    routeM s ("pressed_time.".data ++ ds) = none := by
  have hseg : seg1? ("pressed_time.".data ++ ds) = some ds := by
    simp [seg1?, splitFirst, splitFirst_not_mem (parseNat?_not_dot hp)]
  obtain ⟨c, hlastc, hdigc⟩ := parseNat?_getLast hp
  unfold routeM
  rw [tryIndexed_oob (by simp [strStartsWith]) hseg hp hn,
      tryIndexed_oob (by simp [strStartsWith]) hseg hp hn,
      tryIndexed_not_started (by simp [strStartsWith]) _,
      tryIndexed_not_started (by simp [strStartsWith]) _]
  have hda : (".pressed".data).getLast? = some 'd' := by decide
  have hdb : (".toggled".data).getLast? = some 'd' := by decide
  have hdc : (".values".data).getLast? = some 's' := by decide
  have hnd : isAsciiDigit 'd' = false := by decide
  have hns : isAsciiDigit 's' = false := by decide
  rw [if_neg (append_digit_ne_append_suffix hlastc hdigc hda hnd),
      if_neg (append_digit_ne_append_suffix hlastc hdigc hdb hnd),
      if_neg (append_digit_ne_append_suffix hlastc hdigc hdc hns)]

theorem routeM_oob_toggled (s : MidiState) (ds : List Char) (n : Nat)
    (hp : parseNat? ds = some n) (hn : 1024 ≤ n) :
    routeM s ("toggled.".data ++ ds) = none := by
  have hseg : seg1? ("toggled.".data ++ ds) = some ds := by
    simp [seg1?, splitFirst, splitFirst_not_mem (parseNat?_not_dot hp)]
  obtain ⟨c, hlastc, hdigc⟩ := parseNat?_getLast hp
  unfold routeM
  rw [tryIndexed_not_started (by simp [strStartsWith]) _,
      tryIndexed_not_started (by simp [strStartsWith]) _,
      tryIndexed_oob (by simp [strStartsWith]) hseg hp hn,
      tryIndexed_not_started (by simp [strStartsWith]) _]
  have hda : (".pressed".data).getLast? = some 'd' := by decide
  have hdb : (".toggled".data).getLast? = some 'd' := by decide
  have hdc : (".values".data).getLast? = some 's' := by decide
  have hnd : isAsciiDigit 'd' = false := by decide
  have hns : isAsciiDigit 's' = false := by decide
  rw [if_neg (append_digit_ne_append_suffix hlastc hdigc hda hnd),
      if_neg (append_digit_ne_append_suffix hlastc hdigc hdb hnd),
      if_neg (append_digit_ne_append_suffix hlastc hdigc hdc hns)]

theorem routeM_oob_value (s : MidiState) (ds : List Char) (n : Nat)
    (hp : parseNat? ds = some n) (hn : 1024 ≤ n) :
    routeM s ("value.".data ++ ds) = none := by
  have hseg : seg1? ("value.".data ++ ds) = some ds := by
    simp [seg1?, splitFirst, splitFirst_not_mem (parseNat?_not_dot hp)]
  obtain ⟨c, hlastc, hdigc⟩ := parseNat?_getLast hp
  unfold routeM
  rw [tryIndexed_not_started (by simp [strStartsWith]) _,
      tryIndexed_not_started (by simp [strStartsWith]) _,
      tryIndexed_not_started (by simp [strStartsWith]) _,
      tryIndexed_oob (by simp [strStartsWith]) hseg hp hn]
  have hda : (".pressed".data).getLast? = some 'd' := by decide
  have hdb : (".toggled".data).getLast? = some 'd' := by decide
  have hdc : (".values".data).getLast? = some 's' := by decide
  have hnd : isAsciiDigit 'd' = false := by decide
  have hns : isAsciiDigit 's' = false := by decide
  rw [if_neg (append_digit_ne_append_suffix hlastc hdigc hda hnd),
      if_neg (append_digit_ne_append_suffix hlastc hdigc hdb hnd),
      if_neg (append_digit_ne_append_suffix hlastc hdigc hdc hns)]

theorem stepMsg_index_bound (s : MidiState) (m : MidiMsg) (j : Nat) (hj : 1024 ≤ j) :
    (stepMsg s m).pressed j = s.pressed j ∧
    (stepMsg s m).toggled j = s.toggled j ∧
    (stepMsg s m).pressed_time j = s.pressed_time j ∧
    (stepMsg s m).toggled_time j = s.toggled_time j ∧
    (stepMsg s m).values j = s.values j := by
  have hni : ∀ (k : Fin 128), ¬(j = k.val) := fun k => by have := k.isLt; omega
  cases m <;> simp [stepMsg, hni] <;> split <;> simp [hni]

/-- C8. An indexed query whose parsed index is out of the 1024-slot table
(for any of the four prefixes, e.g. `pressed.5000`) makes
`MidiProvider::get` return `None` (every branch falls through and no
aggregate name can match, since the query ends in a digit); and no message
ever touches a table slot at an index `>= 1024` (decoded note/control
numbers are 7-bit), so the tables never grow and every table access stays
within `0 <= i < 1024`. -/
theorem out_of_range_is_absent :
    (∀ (s : MidiState) (msgs : List MidiMsg) (ds : List Char) (n : Nat),
      parseNat? ds = some n → 1024 ≤ n →
        (getM s msgs ("pressed.".data ++ ds)).2 = none ∧
        (getM s msgs ("pressed_time.".data ++ ds)).2 = none ∧
        (getM s msgs ("toggled.".data ++ ds)).2 = none ∧
        (getM s msgs ("value.".data ++ ds)).2 = none) ∧
    (∀ (s : MidiState) (m : MidiMsg) (j : Nat), 1024 ≤ j →
      (stepMsg s m).pressed j = s.pressed j ∧
      (stepMsg s m).toggled j = s.toggled j ∧
      (stepMsg s m).pressed_time j = s.pressed_time j ∧
      (stepMsg s m).toggled_time j = s.toggled_time j ∧
      (stepMsg s m).values j = s.values j) := by
  refine ⟨?_, stepMsg_index_bound⟩
  intro s msgs ds n hp hn
  exact ⟨routeM_oob_pressed _ ds n hp hn, routeM_oob_pressed_time _ ds n hp hn,
    routeM_oob_toggled _ ds n hp hn, routeM_oob_value _ ds n hp hn⟩

/-- C8 (witness): `out_of_range_is_absent` applied to the spec's example
query `pressed.5000` on the freshly constructed provider. -/
theorem out_of_range_is_absent_witness :
    parseNat? "5000".data = some 5000 ∧ (1024 : Nat) ≤ 5000 ∧
    "pressed.".data ++ "5000".data = "pressed.5000".data ∧
    (getM (initM "midi".data) [] ("pressed.".data ++ "5000".data)).2 = none :=
  ⟨by decide, by decide, by decide,
   (out_of_range_is_absent.1 (initM "midi".data) [] "5000".data 5000
      (by decide) (by decide)).1⟩

theorem bpmStepLeft_self (s : DjP8State) (now : ℚ) :
    bpmStepLeft s s.left_sync now = s := by
  unfold bpmStepLeft
  simp

theorem bpmStepRight_self (s : DjP8State) (now : ℚ) :
    bpmStepRight s s.right_sync now = s := by
  unfold bpmStepRight
  simp

theorem getP8_empty_channel (s : DjP8State) (now : ℚ) (q : String) :
    (getP8 s now [] q).1 = sweepP8 s now := by
  show bpmStep (List.foldl stepP8Msg (sweepP8 s now) [])
      (sweepP8 s now).left_sync (sweepP8 s now).right_sync now = sweepP8 s now
  rw [List.foldl_nil]
  unfold bpmStep
  rw [bpmStepLeft_self, bpmStepRight_self]

theorem sweepP8_spec (s : DjP8State) (now : ℚ) :
    sweepP8 s now = { s with
      last_left_sync_press :=
        match s.last_left_sync_press with
        | some t => if elapsedSecs now t > 2 then none else some t
        | none => none,
      last_right_sync_press :=
        match s.last_right_sync_press with
        | some t => if elapsedSecs now t > 2 then none else some t
        | none => none } := by
  rcases s with ⟨ll, lb, rr, rb, e1, e2, e3, e4, e5, e6,
    p1, p2, p3, p4, p5, p6, p7, p8, b1, b2, b3, b4, b5, b6, b7, b8⟩
  unfold sweepP8 sweepLeft sweepRight
  rcases ll with _ | tl <;> rcases rr with _ | tr <;> simp <;> split_ifs <;> simp_all

unseal Rat.mul Rat.inv Rat.add Rat.sub in
/-- C9 (counterexample). A `DjP8Provider::get` call with an empty message
channel is not mutation-free: the staleness sweep clears a stale
`last_left_sync_press` reference, so the post-call state differs from the
pre-call state. -/
theorem empty_poll_still_mutates :
    (getP8 { initP8 with last_left_sync_press := some 0 } 5 [] "left_bpm").1 ≠
      { initP8 with last_left_sync_press := some 0 } := by
  decide

/-- C9 (amended). Query resolution itself never mutates: with an empty
channel `MidiProvider::get` returns the state unchanged, and
`DjP8Provider::get` returns exactly the staleness-swept state — the sweep
(which runs on every poll) touches nothing except possibly clearing the two
sync reference timestamps once their `elapsed().as_secs()` exceeds 2. -/
theorem query_purity :
    (∀ (s : MidiState) (q : List Char), (getM s [] q).1 = s) ∧
    (∀ (s : DjP8State) (now : ℚ) (q : String), (getP8 s now [] q).1 = sweepP8 s now) ∧
    (∀ (s : DjP8State) (now : ℚ),
      sweepP8 s now = { s with
        last_left_sync_press :=
          match s.last_left_sync_press with
          | some t => if elapsedSecs now t > 2 then none else some t
          | none => none,
        last_right_sync_press :=
          match s.last_right_sync_press with
          | some t => if elapsedSecs now t > 2 then none else some t
          | none => none }) :=
  ⟨fun _ _ => rfl, getP8_empty_channel, sweepP8_spec⟩

theorem splitFirst_snd_of_mem {c : Char} {xs : List Char} (h : c ∈ xs) :
    (splitFirst c xs).2 ≠ none := by
  induction xs with
  | nil => cases h
  | cons x xs ih =>
      rw [splitFirst]
      by_cases hx : x = c
      · simp [hx]
      · rcases List.mem_cons.mp h with rfl | h2
        · exact absurd rfl hx
        · simp [hx, ih h2]

theorem seg1?_isSome {q : List Char} (h : '.' ∈ q) : ∃ sg, seg1? q = some sg := by
  unfold seg1?
  rcases hs : splitFirst '.' q with ⟨a, b⟩
  rcases b with _ | rest
  · exact absurd (by rw [hs]) (splitFirst_snd_of_mem h)
  · exact ⟨_, rfl⟩

theorem tryIndexed_result {q pre sg : List Char} (hseg : seg1? q = some sg)
    (v : Nat → DataHolder) (r : Option DataHolder)
    (h : tryIndexed q pre (fun i => if i < 1024 then some (v i) else none) = some r) :
    ∃ d, r = some d := by
  unfold tryIndexed at h
  split at h
  · rw [hseg] at h
    have h2 : (match parseNat? sg with
        | some i => Option.map some (if i < 1024 then some (v i) else none)
        | none => none) = some r := h
    cases hp : parseNat? sg with
    | some i =>
        rw [hp] at h2
        by_cases hi : i < 1024
        · simp only [hi, if_true, Option.map_some] at h2
          exact ⟨v i, (Option.some.inj h2).symm⟩
        · simp [hi] at h2
    | none => rw [hp] at h2; cases h2
  · cases h

theorem routeM_provides_some (s : MidiState) (sfx : List Char)
    (hsfx : sfx = ".pressed".data ∨ sfx = ".toggled".data ∨ sfx = ".values".data) :
    routeM s (s.name ++ sfx) ≠ none := by
  have hdot : '.' ∈ s.name ++ sfx := by
    rcases hsfx with rfl | rfl | rfl <;> exact List.mem_append_right _ (by decide)
  obtain ⟨sg, hseg⟩ := seg1?_isSome hdot
  unfold routeM
  cases h1 : tryIndexed (s.name ++ sfx) "pressed_time".data
      (fun i => if i < 1024 then some (.Float (s.pressed_time i)) else none) with
  | some r =>
      obtain ⟨d, rfl⟩ := tryIndexed_result hseg _ r h1
      simp
  | none =>
  cases h2 : tryIndexed (s.name ++ sfx) "pressed".data
      (fun i => if i < 1024 then some (.Bool (s.pressed i)) else none) with
  | some r =>
      obtain ⟨d, rfl⟩ := tryIndexed_result hseg _ r h2
      simp
  | none =>
  cases h3 : tryIndexed (s.name ++ sfx) "toggled".data
      (fun i => if i < 1024 then some (.Bool (s.toggled i)) else none) with
  | some r =>
      obtain ⟨d, rfl⟩ := tryIndexed_result hseg _ r h3
      simp
  | none =>
  cases h4 : tryIndexed (s.name ++ sfx) "value".data
      (fun i => if i < 1024 then some (.Int (s.values i)) else none) with
  | some r =>
      obtain ⟨d, rfl⟩ := tryIndexed_result hseg _ r h4
      simp
  | none =>
      rcases hsfx with rfl | rfl | rfl
      · simp
      · rw [if_neg (fun he => by simpa using List.append_cancel_left he)]
        simp
      · rw [if_neg (fun he => by simpa using List.append_cancel_left he),
            if_neg (fun he => by simpa using List.append_cancel_left he)]
        simp

theorem routeP8_provides_some (s : DjP8State) (q : String) (hq : q ∈ providesP8) :
    routeP8 s q ≠ none := by
  simp only [providesP8, List.mem_cons, List.not_mem_nil, or_false] at hq
  rcases hq with rfl | rfl | rfl | rfl | rfl | rfl | rfl | rfl | rfl | rfl | rfl | rfl |
    rfl | rfl | rfl | rfl | rfl | rfl | rfl | rfl | rfl | rfl | rfl | rfl <;>
    simp [routeP8]

/-- C10. Every name advertised by `provides()` is always answerable: for any
state and any buffered messages, `MidiProvider::get` returns a value (never
`None`) for each of `<name>.pressed`, `<name>.toggled`, `<name>.values`, and
`DjP8Provider::get` returns a value for each of its 24 fixed names. -/
theorem provides_always_answerable :
    (∀ (s : MidiState) (msgs : List MidiMsg) (q : List Char),
      q ∈ providesM s → (getM s msgs q).2 ≠ none) ∧
    (∀ (s : DjP8State) (now : ℚ) (msgs : List MidiMsg) (q : String),
      q ∈ providesP8 → (getP8 s now msgs q).2 ≠ none) := by
  constructor
  · intro s msgs q hq
    simp only [providesM, List.mem_cons, List.not_mem_nil, or_false] at hq
    show routeM (drainM s msgs) q ≠ none
    have hname : s.name = (drainM s msgs).name := (drainM_name s msgs).symm
    rcases hq with rfl | rfl | rfl <;>
      · rw [hname]
        exact routeM_provides_some (drainM s msgs) _ (by simp)
  · intro s now msgs q hq
    exact routeP8_provides_some _ q hq

/-- C10 (witness): `provides_always_answerable` applied to the freshly
constructed providers and the names `midi.pressed` and `left_bpm`. -/
theorem provides_always_answerable_witness :
    ("midi".data ++ ".pressed".data) ∈ providesM (initM "midi".data) ∧
    (getM (initM "midi".data) [] ("midi".data ++ ".pressed".data)).2 ≠ none ∧
    "left_bpm" ∈ providesP8 ∧
    (getP8 initP8 0 [] "left_bpm").2 ≠ none :=
  ⟨by decide,
   provides_always_answerable.1 (initM "midi".data) [] ("midi".data ++ ".pressed".data)
     (by decide),
   by decide,
   provides_always_answerable.2 initP8 0 [] "left_bpm" (by decide)⟩
